import Mathlib

/-!
Verification of the QuantCode trading-analysis core against its
natural-language specification.

The frontend JavaScript (trade-journal P&L, dashboard batch fetch,
watchlist editor, risk-calculator request builders) is embedded directly
from the source files.  The Python analysis backend (consensus voting,
position sizing, Heiken-Ashi transform) is not present in the repository
snapshot; those components are modelled from the specification, as marked
in their doc comments.  Prices are modelled as rationals.
-/

namespace QuantCode

/-- A journal trade record as read by the P&L engine
(`entry_price, exit_price, trade_type, status`); `exit_price` is
optional (`null`/absent in the store). -/
structure Trade where
  status : String
  trade_type : String
  entry_price : ℚ
  exit_price : Option ℚ

/-- Embedding of `calcPnL` from
`frontend/src/components/JournalView.js` (lines 28–35):
returns `null` unless the trade is CLOSED with a present exit price,
then `exit - entry` for LONG, `entry - exit` for SHORT, `null` for any
other `trade_type`. -/
def calcPnL (trade : Trade) : Option ℚ :=
  if trade.status ≠ "CLOSED" then none
  else match trade.exit_price with
    | none => none
    | some exit =>
      if trade.trade_type = "LONG" then some (exit - trade.entry_price)
      else if trade.trade_type = "SHORT" then some (trade.entry_price - exit)
      else none

/-- The three trading signals. -/
inductive Signal where
  | BUY
  | SELL
  | HOLD
deriving DecidableEq, Repr

/-- Number of BUY votes among indicator signals. -/
def buyVotes (signals : List Signal) : ℕ := signals.count Signal.BUY

/-- Number of SELL votes among indicator signals. -/
def sellVotes (signals : List Signal) : ℕ := signals.count Signal.SELL

/-- Modelled from the spec: `get_final_signal` of the consensus engine
(the Python implementation is absent from the snapshot; only
`FLASK_INTEGRATION.md` documents it).  BUY iff `buy_votes ≥ 2` and
`buy_votes > sell_votes`; SELL iff `sell_votes ≥ 2` and
`sell_votes > buy_votes`; otherwise HOLD. -/
def get_final_signal (signals : List Signal) : Signal :=
  let b := buyVotes signals
  let s := sellVotes signals
  if 2 ≤ b ∧ s < b then Signal.BUY
  else if 2 ≤ s ∧ b < s then Signal.SELL
  else Signal.HOLD

/-- One dashboard summary entry, embedding the per-ticker body of
`fetchDashboardSummaries` in `App.js` (unnamed part, lines 142–150):
on a successful analysis the entry carries the returned `final_signal`,
on any failure the marker string `"N/A"`. -/
def summaryEntry (fetch : String → Except String String) (t : String) :
    String × String :=
  (t, match fetch t with
      | Except.ok sig => sig
      | Except.error _ => "N/A")

/-- Embedding of `fetchDashboardSummaries`: maps `summaryEntry` over the
watchlist; each ticker is fetched independently inside its own
`try/catch`, so the whole batch is a total function. -/
def fetchDashboardSummaries (fetch : String → Except String String)
    (tickers : List String) : List (String × String) :=
  tickers.map (summaryEntry fetch)

/-- Error taxonomy for the position-sizing calculator (spec §7 / §4.4). -/
inductive PositionError where
  | validationError
  | invalidRiskParameters
deriving DecidableEq, Repr

/-- The position-sizing output record (spec §3 `PositionSizePlan`). -/
structure PositionSizePlan where
  risk_amount : ℚ
  risk_per_share : ℚ
  max_shares : ℤ
  total_investment : ℚ
deriving DecidableEq, Repr

/-- Modelled from the spec: `calculate_position_size` (spec §4.4; the
Python implementation is absent from the snapshot).  Fails with
`ValidationError` on any non-positive input, with
`InvalidRiskParametersError` when `entry_price = stop_loss_price`;
otherwise `risk_amount = account_size·risk_percent/100`,
`risk_per_share = |entry_price - stop_loss_price|`,
`max_shares = ⌊risk_amount / risk_per_share⌋`,
`total_investment = max_shares·entry_price`. -/
def calculate_position_size (account_size risk_percent entry_price
    stop_loss_price : ℚ) : Except PositionError PositionSizePlan :=
  if account_size ≤ 0 ∨ risk_percent ≤ 0 ∨ entry_price ≤ 0 ∨
      stop_loss_price ≤ 0 then
    Except.error PositionError.validationError
  else if entry_price = stop_loss_price then
    Except.error PositionError.invalidRiskParameters
  else
    let risk_amount := account_size * risk_percent / 100
    let risk_per_share := |entry_price - stop_loss_price|
    let max_shares := ⌊risk_amount / risk_per_share⌋
    Except.ok ⟨risk_amount, risk_per_share, max_shares,
      (max_shares : ℚ) * entry_price⟩

/-- The query parameters a frontend calculator sends to
`/api/calculate_position_size`. -/
structure PositionSizeParams where
  account : ℚ
  risk : ℚ
  entry : ℚ
  sl : ℚ
deriving DecidableEq, Repr

/-- Embedding of `calculate` in the `RiskCalculator` component
(unnamed part, lines 141–158): after the `isInvalid` guard (each value
must be > 0) it issues a request with `risk: 1` hard-wired; `none`
models the early return on invalid input. -/
def riskCalculatorRequest (accountSize entryPrice stopLossPrice : ℚ) :
    Option PositionSizeParams :=
  if accountSize ≤ 0 ∨ entryPrice ≤ 0 ∨ stopLossPrice ≤ 0 then none
  else some ⟨accountSize, 1, entryPrice, stopLossPrice⟩

/-- Embedding of `handleCalculatePositionSize` in
`frontend/src/App.js` (lines 97–139): after validating all three inputs
are positive it issues a request with `risk: 1` ("Hardcoded to 1% as
requested"); `none` models the early return on invalid input. -/
def handleCalculatePositionSize (account entry stopLoss : ℚ) :
    Option PositionSizeParams :=
  if account ≤ 0 ∨ entry ≤ 0 ∨ stopLoss ≤ 0 then none
  else some ⟨account, 1, entry, stopLoss⟩

/-- One OHLC bar (spec §3). -/
structure Bar where
  open_ : ℚ
  high : ℚ
  low : ℚ
  close : ℚ
deriving DecidableEq, Repr

/-- One derived Heiken-Ashi bar (spec §3). -/
structure HABar where
  ha_open : ℚ
  ha_high : ℚ
  ha_low : ℚ
  ha_close : ℚ
deriving DecidableEq, Repr

/-- Per-bar `HA_Close = (Open + High + Low + Close) / 4` (spec §4.2,
technical doc formula 1). -/
def haClose (b : Bar) : ℚ := (b.open_ + b.high + b.low + b.close) / 4

/-- Modelled from the spec: the inner loop of `analyze_heiken_ashi`
(the Python analyzer is absent from the snapshot; the technical doc in
the repository gives the four formulas).  Carries the running `ha_open`
accumulator `o`: for the current bar it emits
`⟨o, max(high, o, ha_close), min(low, o, ha_close), ha_close⟩` and
recurses with `(o + ha_close) / 2`. -/
def heikenAshiGo (o : ℚ) : List Bar → List HABar
  | [] => []
  | b :: rest =>
    let hc := haClose b
    ⟨o, max b.high (max o hc), min b.low (min o hc), hc⟩ ::
      heikenAshiGo ((o + hc) / 2) rest

/-- Modelled from the spec: the Heiken-Ashi transform, seeding
`ha_open[0] = (open[0] + close[0]) / 2`. -/
def heikenAshi : List Bar → List HABar
  | [] => []
  | b :: rest => heikenAshiGo ((b.open_ + b.close) / 2) (b :: rest)

/-- Model of JavaScript `String.prototype.trim`: drop whitespace from
both ends. -/
def jsTrim (s : String) : String :=
  ⟨((s.data.dropWhile Char.isWhitespace).reverse.dropWhile
      Char.isWhitespace).reverse⟩

/-- Model of JavaScript `String.prototype.toUpperCase`: uppercase each
character. -/
def jsToUpper (s : String) : String := ⟨s.data.map Char.toUpper⟩

/-- Embedding of `addTicker` in the `TickerManager` component
(unnamed part, lines 43–48): trim and uppercase the input, ignore a
blank result, append only when not already present. -/
def addTicker (input : String) (tickers : List String) : List String :=
  let sym := jsToUpper (jsTrim input)
  if sym = "" then tickers
  else if sym ∈ tickers then tickers
  else tickers ++ [sym]

/-- Embedding of `removeTicker` (lines 50–52): filter out the symbol. -/
def removeTicker (sym : String) (tickers : List String) : List String :=
  tickers.filter (· ≠ sym)

/-- One watchlist-editor operation. -/
inductive WatchOp where
  | add (input : String)
  | remove (sym : String)

/-- Apply a sequence of watchlist-editor operations, oldest first. -/
def applyWatchOps (ops : List WatchOp) (tickers : List String) :
    List String :=
  ops.foldl (fun l op =>
    match op with
    | WatchOp.add input => addTicker input l
    | WatchOp.remove sym => removeTicker sym l) tickers

/-- A concrete fetcher for the batch scenario of spec §8: ticker `"A"`
succeeds with signal `BUY`, every other ticker's fetch fails. -/
def fetchAB : String → Except String String :=
  fun t => if t = "A" then Except.ok "BUY" else Except.error "fetch failed"

/-- A concrete bar for evaluating the Heiken-Ashi transform. -/
def bar0 : Bar := ⟨10, 12, 8, 10⟩

/-- A second concrete bar for evaluating the Heiken-Ashi transform. -/
def bar1 : Bar := ⟨10, 14, 10, 12⟩

section Examples

example : addTicker " aapl " ["MSFT"] = ["MSFT", "AAPL"] := by decide
example : addTicker "  " ["MSFT"] = ["MSFT"] := by decide
example : addTicker "msft" ["MSFT"] = ["MSFT"] := by decide
example : calcPnL ⟨"CLOSED", "LONG", 100, some 120⟩ = some 20 := by
  simp [calcPnL]; norm_num
example : calcPnL ⟨"CLOSED", "SHORT", 100, some 120⟩ = some (-20) := by
  simp [calcPnL]; norm_num
example : calcPnL ⟨"OPEN", "LONG", 100, some 120⟩ = none := by
  simp [calcPnL]
example : get_final_signal [.BUY, .BUY, .SELL, .SELL] = .HOLD := by decide
example : get_final_signal [.BUY, .SELL, .SELL, .HOLD] = .SELL := by decide

end Examples

/-- C1: for every trade record with status `CLOSED` and a present
`exit_price`, `calcPnL` returns `exit_price - entry_price` for a LONG
trade and `entry_price - exit_price` for a SHORT trade; in particular
entry 100 / exit 120 yields +20 for LONG and -20 for SHORT. -/
theorem C1_pnl_closed_trade (t : Trade) (exit : ℚ)
    (hst : t.status = "CLOSED") (hex : t.exit_price = some exit) :
    (t.trade_type = "LONG" → calcPnL t = some (exit - t.entry_price)) ∧
    (t.trade_type = "SHORT" → calcPnL t = some (t.entry_price - exit)) ∧
    calcPnL ⟨"CLOSED", "LONG", 100, some 120⟩ = some 20 ∧
    calcPnL ⟨"CLOSED", "SHORT", 100, some 120⟩ = some (-20) := by
  refine ⟨fun hty => ?_, fun hty => ?_, ?_, ?_⟩
  · simp [calcPnL, hst, hex, hty]
  · simp [calcPnL, hst, hex, hty]
  · simp [calcPnL]; norm_num
  · simp [calcPnL]; norm_num

/-- Witness for C1 at a concrete closed LONG trade. -/
theorem C1_pnl_closed_trade_witness :
    calcPnL ⟨"CLOSED", "LONG", 100, some 120⟩ = some (120 - 100) :=
  (C1_pnl_closed_trade ⟨"CLOSED", "LONG", 100, some 120⟩ 120 rfl rfl).1 rfl

/-- C3: for every trade record whose status is not `CLOSED` or whose
`exit_price` is absent, `calcPnL` returns `none` (the distinguished
"not applicable" value), never the number zero. -/
theorem C3_pnl_undefined (t : Trade)
    (h : t.status ≠ "CLOSED" ∨ t.exit_price = none) :
    calcPnL t = none ∧ calcPnL t ≠ some 0 := by
  have hnone : calcPnL t = none := by
    rcases h with h | h
    · simp [calcPnL, h]
    · unfold calcPnL
      rw [h]
      by_cases hs : t.status = "CLOSED" <;> simp [hs]
  exact ⟨hnone, by simp [hnone]⟩

/-- Witness for C3 at a concrete OPEN trade. -/
theorem C3_pnl_undefined_witness :
    calcPnL ⟨"OPEN", "LONG", 100, some 120⟩ = none :=
  (C3_pnl_undefined ⟨"OPEN", "LONG", 100, some 120⟩
    (Or.inl (by decide))).1

/-- C9: for every trade record with status `CLOSED` and a present
`exit_price` whose `trade_type` is neither `LONG` nor `SHORT`,
`calcPnL` returns `none` — the same "not applicable" result as for an
open trade — rather than a number. -/
theorem C9_pnl_unknown_trade_type (t : Trade) (exit : ℚ)
    (hst : t.status = "CLOSED") (hex : t.exit_price = some exit)
    (h1 : t.trade_type ≠ "LONG") (h2 : t.trade_type ≠ "SHORT") :
    calcPnL t = none := by
  simp [calcPnL, hst, hex, h1, h2]

/-- Witness for C9 at a concrete closed trade with an unrecognized
trade type. -/
theorem C9_pnl_unknown_trade_type_witness :
    calcPnL ⟨"CLOSED", "SPREAD", 100, some 120⟩ = none :=
  C9_pnl_unknown_trade_type ⟨"CLOSED", "SPREAD", 100, some 120⟩ 120
    rfl rfl (by decide) (by decide)

/-- C2: for every ordered collection of exactly four indicator signals,
`get_final_signal` is BUY iff `buy_votes ≥ 2 ∧ buy_votes > sell_votes`,
SELL iff `sell_votes ≥ 2 ∧ sell_votes > buy_votes`, HOLD in every other
case; in particular every tie (2 BUY / 2 SELL, or no signal reaching 2
votes) resolves to HOLD. -/
theorem C2_consensus_rule (signals : List Signal)
    (hlen : signals.length = 4) :
    (get_final_signal signals = Signal.BUY ↔
      2 ≤ buyVotes signals ∧ sellVotes signals < buyVotes signals) ∧
    (get_final_signal signals = Signal.SELL ↔
      2 ≤ sellVotes signals ∧ buyVotes signals < sellVotes signals) ∧
    (¬(2 ≤ buyVotes signals ∧ sellVotes signals < buyVotes signals) →
     ¬(2 ≤ sellVotes signals ∧ buyVotes signals < sellVotes signals) →
      get_final_signal signals = Signal.HOLD) ∧
    (buyVotes signals = 2 → sellVotes signals = 2 →
      get_final_signal signals = Signal.HOLD) ∧
    (buyVotes signals < 2 → sellVotes signals < 2 →
      get_final_signal signals = Signal.HOLD) := by
  simp only [get_final_signal]
  split_ifs with h1 h2 <;>
    refine ⟨?_, ?_, ?_, ?_, ?_⟩ <;> simp_all <;> omega

/-- Witness for C2 at the 2 BUY / 2 SELL tie. -/
theorem C2_consensus_rule_witness :
    get_final_signal [Signal.BUY, Signal.BUY, Signal.SELL, Signal.SELL]
      = Signal.HOLD :=
  (C2_consensus_rule [Signal.BUY, Signal.BUY, Signal.SELL, Signal.SELL]
    rfl).2.2.2.1 (by decide) (by decide)

/-- C4: the dashboard batch fetch returns one entry per requested
ticker — carrying the analysis result when the fetch succeeds and the
`"N/A"` error marker when it fails — and, being a pointwise total map,
a failure of one ticker never aborts the batch nor alters the entries
of the other tickers (the batch depends only on each ticker's own
fetch outcome). -/
theorem C4_batch_per_ticker (fetch fetch' : String → Except String String)
    (tickers : List String) :
    (fetchDashboardSummaries fetch tickers).map Prod.fst = tickers ∧
    (∀ t sig, fetch t = Except.ok sig → summaryEntry fetch t = (t, sig)) ∧
    (∀ t e, fetch t = Except.error e →
      summaryEntry fetch t = (t, "N/A")) ∧
    ((∀ t, t ∈ tickers → fetch t = fetch' t) →
      fetchDashboardSummaries fetch tickers
        = fetchDashboardSummaries fetch' tickers) := by
  refine ⟨?_, ?_, ?_, ?_⟩
  · simp only [fetchDashboardSummaries, List.map_map]
    have : Prod.fst ∘ summaryEntry fetch = id := by
      funext t; rfl
    rw [this, List.map_id]
  · intro t sig h; simp [summaryEntry, h]
  · intro t e h; simp [summaryEntry, h]
  · intro hagree
    simp only [fetchDashboardSummaries]
    exact List.map_congr_left fun t ht => by simp [summaryEntry, hagree t ht]

/-- Witness for C4 at the spec's batch scenario: tickers `["A","B"]`
where B's fetch fails yields a result for A and an error entry for B. -/
theorem C4_batch_per_ticker_witness :
    fetchDashboardSummaries fetchAB ["A", "B"] = [("A", "BUY"), ("B", "N/A")] := by
  have h := C4_batch_per_ticker fetchAB fetchAB ["A", "B"]
  have hA := h.2.1 "A" "BUY" (by simp [fetchAB])
  have hB := h.2.2.1 "B" "fetch failed" (by simp [fetchAB])
  simp [fetchDashboardSummaries, hA, hB]

/-- C5: for positive `account_size`, `risk_percent`, `entry_price`,
`stop_loss_price` with `entry_price ≠ stop_loss_price`,
`calculate_position_size` succeeds and its plan satisfies
`risk_amount = account_size·risk_percent/100`,
`risk_per_share = |entry_price - stop_loss_price|`,
`max_shares = ⌊risk_amount / risk_per_share⌋` — whence
`max_shares·risk_per_share ≤ risk_amount <
(max_shares+1)·risk_per_share` — and
`total_investment = max_shares·entry_price`. -/
theorem C5_position_size_formulas (account_size risk_percent entry_price
    stop_loss_price : ℚ) (ha : 0 < account_size) (hr : 0 < risk_percent)
    (he : 0 < entry_price) (hs : 0 < stop_loss_price)
    (hne : entry_price ≠ stop_loss_price) :
    ∃ plan, calculate_position_size account_size risk_percent entry_price
        stop_loss_price = Except.ok plan ∧
      plan.risk_amount = account_size * risk_percent / 100 ∧
      plan.risk_per_share = |entry_price - stop_loss_price| ∧
      plan.max_shares = ⌊plan.risk_amount / plan.risk_per_share⌋ ∧
      (plan.max_shares : ℚ) * plan.risk_per_share ≤ plan.risk_amount ∧
      plan.risk_amount < (plan.max_shares + 1 : ℚ) * plan.risk_per_share ∧
      plan.total_investment = (plan.max_shares : ℚ) * entry_price := by
  have hguard : ¬(account_size ≤ 0 ∨ risk_percent ≤ 0 ∨ entry_price ≤ 0 ∨
      stop_loss_price ≤ 0) := by push_neg; exact ⟨ha, hr, he, hs⟩
  have hrps : 0 < |entry_price - stop_loss_price| :=
    abs_pos.mpr (sub_ne_zero.mpr hne)
  refine ⟨⟨account_size * risk_percent / 100,
           |entry_price - stop_loss_price|,
           ⌊account_size * risk_percent / 100 /
             |entry_price - stop_loss_price|⌋,
           (⌊account_size * risk_percent / 100 /
             |entry_price - stop_loss_price|⌋ : ℚ) * entry_price⟩,
         ?_, rfl, rfl, rfl, ?_, ?_, rfl⟩
  · simp only [calculate_position_size, if_neg hguard, if_neg hne]
  · calc (⌊(account_size * risk_percent / 100) /
            |entry_price - stop_loss_price|⌋ : ℚ) *
          |entry_price - stop_loss_price|
        ≤ ((account_size * risk_percent / 100) /
            |entry_price - stop_loss_price|) *
          |entry_price - stop_loss_price| :=
          mul_le_mul_of_nonneg_right (Int.floor_le _) hrps.le
      _ = account_size * risk_percent / 100 := div_mul_cancel₀ _ hrps.ne'
  · have hlt : (account_size * risk_percent / 100) /
        |entry_price - stop_loss_price| <
        (⌊(account_size * risk_percent / 100) /
          |entry_price - stop_loss_price|⌋ : ℚ) + 1 :=
      Int.lt_floor_add_one _
    calc account_size * risk_percent / 100
        = ((account_size * risk_percent / 100) /
            |entry_price - stop_loss_price|) *
          |entry_price - stop_loss_price| :=
          (div_mul_cancel₀ _ hrps.ne').symm
      _ < ((⌊(account_size * risk_percent / 100) /
            |entry_price - stop_loss_price|⌋ : ℚ) + 1) *
          |entry_price - stop_loss_price| :=
          mul_lt_mul_of_pos_right hlt hrps

/-- Witness for C5 at account 10000, risk 1%, entry 100, stop 95. -/
theorem C5_position_size_formulas_witness :
    ∃ plan, calculate_position_size 10000 1 100 95 = Except.ok plan ∧
      (plan.max_shares : ℚ) * plan.risk_per_share ≤ plan.risk_amount := by
  obtain ⟨plan, h1, _, _, _, h5, _, _⟩ :=
    C5_position_size_formulas 10000 1 100 95 (by norm_num) (by norm_num)
      (by norm_num) (by norm_num) (by norm_num)
  exact ⟨plan, h1, h5⟩

/-- C6: for all positive inputs with `entry_price = stop_loss_price`,
`calculate_position_size` fails with the invalid-risk-parameters error
and produces no `PositionSizePlan`; zero risk per share is never
silently accepted. -/
theorem C6_equal_entry_stop_fails (account_size risk_percent entry_price
    stop_loss_price : ℚ) (ha : 0 < account_size) (hr : 0 < risk_percent)
    (he : 0 < entry_price) (hs : 0 < stop_loss_price)
    (heq : entry_price = stop_loss_price) :
    calculate_position_size account_size risk_percent entry_price
        stop_loss_price
      = Except.error PositionError.invalidRiskParameters ∧
    ∀ plan, calculate_position_size account_size risk_percent entry_price
        stop_loss_price ≠ Except.ok plan := by
  have hguard : ¬(account_size ≤ 0 ∨ risk_percent ≤ 0 ∨ entry_price ≤ 0 ∨
      stop_loss_price ≤ 0) := by push_neg; exact ⟨ha, hr, he, hs⟩
  have herr : calculate_position_size account_size risk_percent entry_price
      stop_loss_price = Except.error PositionError.invalidRiskParameters := by
    simp only [calculate_position_size, if_neg hguard, if_pos heq]
  exact ⟨herr, fun plan => by simp [herr]⟩

/-- Witness for C6 at entry = stop = 50. -/
theorem C6_equal_entry_stop_fails_witness :
    calculate_position_size 1000 1 50 50
      = Except.error PositionError.invalidRiskParameters :=
  (C6_equal_entry_stop_fails 1000 1 50 50 (by norm_num) (by norm_num)
    (by norm_num) (by norm_num) rfl).1

/-- C8: every position-size request issued by either frontend
calculator passes `risk = 1` (the fixed 1% product default), while
`calculate_position_size` itself takes `risk_percent` as a genuine
parameter — different risk percentages produce different plans. -/
theorem C8_risk_fixed_at_one (a e s a' e' s' : ℚ)
    (p p' : PositionSizeParams)
    (h1 : riskCalculatorRequest a e s = some p)
    (h2 : handleCalculatePositionSize a' e' s' = some p') :
    p.risk = 1 ∧ p'.risk = 1 ∧
    calculate_position_size 10000 1 100 95
      ≠ calculate_position_size 10000 2 100 95 := by
  refine ⟨?_, ?_, ?_⟩
  · unfold riskCalculatorRequest at h1
    split_ifs at h1
    cases h1
    rfl
  · unfold handleCalculatePositionSize at h2
    split_ifs at h2
    cases h2
    rfl
  · intro h
    norm_num [calculate_position_size, PositionSizePlan.mk.injEq] at h

/-- Witness for C8 at concrete calculator inputs. -/
theorem C8_risk_fixed_at_one_witness :
    (⟨1000, 1, 50, 45⟩ : PositionSizeParams).risk = 1 ∧
    (⟨2000, 1, 60, 55⟩ : PositionSizeParams).risk = 1 := by
  have h := C8_risk_fixed_at_one 1000 50 45 2000 60 55
    ⟨1000, 1, 50, 45⟩ ⟨2000, 1, 60, 55⟩
    (by norm_num [riskCalculatorRequest])
    (by norm_num [handleCalculatePositionSize])
  exact ⟨h.1, h.2.1⟩

/-- The worker `heikenAshiGo` produces one derived bar per input bar. -/
lemma heikenAshiGo_length (o : ℚ) (bars : List Bar) :
    (heikenAshiGo o bars).length = bars.length := by
  induction bars generalizing o with
  | nil => rfl
  | cons b rest ih => simp [heikenAshiGo, ih]

/-- The Heiken-Ashi transform produces one derived bar per input bar. -/
lemma heikenAshi_length (bars : List Bar) :
    (heikenAshi bars).length = bars.length := by
  cases bars with
  | nil => rfl
  | cons b rest => simp [heikenAshi, heikenAshiGo_length]

/-- Each bar emitted by `heikenAshiGo` carries the per-bar `haClose`. -/
lemma heikenAshiGo_get_close (o : ℚ) (bars : List Bar) (i : ℕ)
    (hi : i < bars.length) (hi' : i < (heikenAshiGo o bars).length) :
    ((heikenAshiGo o bars).get ⟨i, hi'⟩).ha_close
      = haClose (bars.get ⟨i, hi⟩) := by
  induction bars generalizing o i with
  | nil => simp at hi
  | cons b rest ih =>
    cases i with
    | zero => rfl
    | succ j =>
      have hj : j < rest.length := by simpa using hi
      have hj' : j < (heikenAshiGo ((o + haClose b) / 2) rest).length := by
        rw [heikenAshiGo_length]; exact hj
      simpa only [heikenAshiGo, List.get_cons_succ] using
        ih ((o + haClose b) / 2) j hj hj'

/-- Each bar emitted by `heikenAshiGo` has
`ha_high = max (high, ha_open, ha_close)` of the same bar. -/
lemma heikenAshiGo_get_high (o : ℚ) (bars : List Bar) (i : ℕ)
    (hi : i < bars.length) (hi' : i < (heikenAshiGo o bars).length) :
    ((heikenAshiGo o bars).get ⟨i, hi'⟩).ha_high
      = max (bars.get ⟨i, hi⟩).high
          (max ((heikenAshiGo o bars).get ⟨i, hi'⟩).ha_open
               ((heikenAshiGo o bars).get ⟨i, hi'⟩).ha_close) := by
  induction bars generalizing o i with
  | nil => simp at hi
  | cons b rest ih =>
    cases i with
    | zero => rfl
    | succ j =>
      have hj : j < rest.length := by simpa using hi
      have hj' : j < (heikenAshiGo ((o + haClose b) / 2) rest).length := by
        rw [heikenAshiGo_length]; exact hj
      simpa only [heikenAshiGo, List.get_cons_succ] using
        ih ((o + haClose b) / 2) j hj hj'

/-- Each bar emitted by `heikenAshiGo` has
`ha_low = min (low, ha_open, ha_close)` of the same bar. -/
lemma heikenAshiGo_get_low (o : ℚ) (bars : List Bar) (i : ℕ)
    (hi : i < bars.length) (hi' : i < (heikenAshiGo o bars).length) :
    ((heikenAshiGo o bars).get ⟨i, hi'⟩).ha_low
      = min (bars.get ⟨i, hi⟩).low
          (min ((heikenAshiGo o bars).get ⟨i, hi'⟩).ha_open
               ((heikenAshiGo o bars).get ⟨i, hi'⟩).ha_close) := by
  induction bars generalizing o i with
  | nil => simp at hi
  | cons b rest ih =>
    cases i with
    | zero => rfl
    | succ j =>
      have hj : j < rest.length := by simpa using hi
      have hj' : j < (heikenAshiGo ((o + haClose b) / 2) rest).length := by
        rw [heikenAshiGo_length]; exact hj
      simpa only [heikenAshiGo, List.get_cons_succ] using
        ih ((o + haClose b) / 2) j hj hj'

/-- The first bar emitted by `heikenAshiGo` carries the accumulator as
its `ha_open`. -/
lemma heikenAshiGo_get_zero_open (o : ℚ) (bars : List Bar)
    (h : 0 < (heikenAshiGo o bars).length) :
    ((heikenAshiGo o bars).get ⟨0, h⟩).ha_open = o := by
  cases bars with
  | nil => simp [heikenAshiGo] at h
  | cons b rest => rfl

/-- Consecutive bars emitted by `heikenAshiGo` satisfy the `ha_open`
recurrence `ha_open[j+1] = (ha_open[j] + ha_close[j]) / 2`. -/
lemma heikenAshiGo_get_succ_open (o : ℚ) (bars : List Bar) (j : ℕ)
    (hj' : j < (heikenAshiGo o bars).length)
    (hj1' : j + 1 < (heikenAshiGo o bars).length) :
    ((heikenAshiGo o bars).get ⟨j + 1, hj1'⟩).ha_open
      = (((heikenAshiGo o bars).get ⟨j, hj'⟩).ha_open +
         ((heikenAshiGo o bars).get ⟨j, hj'⟩).ha_close) / 2 := by
  induction bars generalizing o j with
  | nil => simp [heikenAshiGo] at hj1'
  | cons b rest ih =>
    cases j with
    | zero =>
      have hrest : 0 < (heikenAshiGo ((o + haClose b) / 2) rest).length := by
        have h1 := hj1'
        simp only [heikenAshiGo, List.length_cons] at h1
        omega
      simp only [heikenAshiGo, List.get_cons_succ, List.get_cons_zero]
      rw [heikenAshiGo_get_zero_open]
      rfl
    | succ k =>
      have hk' : k < (heikenAshiGo ((o + haClose b) / 2) rest).length := by
        have h1 := hj'
        simp only [heikenAshiGo, List.length_cons] at h1
        omega
      have hk1' : k + 1 <
          (heikenAshiGo ((o + haClose b) / 2) rest).length := by
        have h1 := hj1'
        simp only [heikenAshiGo, List.length_cons] at h1
        omega
      simpa only [heikenAshiGo, List.get_cons_succ] using
        ih ((o + haClose b) / 2) k hk' hk1'

/-- C7: for every series, the Heiken-Ashi transform satisfies at every
index `i`: `ha_close[i] = (open+high+low+close)/4`,
`ha_high[i] = max(high[i], ha_open[i], ha_close[i])` exactly,
`ha_low[i] = min(low[i], ha_open[i], ha_close[i])` exactly,
`ha_open[0] = (open[0]+close[0])/2`, and
`ha_open[j+1] = (ha_open[j]+ha_close[j])/2`. -/
theorem C7_heiken_ashi_recurrence (bars : List Bar) (i : ℕ)
    (hi : i < bars.length) (hi' : i < (heikenAshi bars).length) :
    ((heikenAshi bars).get ⟨i, hi'⟩).ha_close
        = haClose (bars.get ⟨i, hi⟩) ∧
    ((heikenAshi bars).get ⟨i, hi'⟩).ha_high
        = max (bars.get ⟨i, hi⟩).high
            (max ((heikenAshi bars).get ⟨i, hi'⟩).ha_open
                 ((heikenAshi bars).get ⟨i, hi'⟩).ha_close) ∧
    ((heikenAshi bars).get ⟨i, hi'⟩).ha_low
        = min (bars.get ⟨i, hi⟩).low
            (min ((heikenAshi bars).get ⟨i, hi'⟩).ha_open
                 ((heikenAshi bars).get ⟨i, hi'⟩).ha_close) ∧
    (∀ (h0 : 0 < bars.length) (h0' : 0 < (heikenAshi bars).length),
        ((heikenAshi bars).get ⟨0, h0'⟩).ha_open
          = ((bars.get ⟨0, h0⟩).open_ + (bars.get ⟨0, h0⟩).close) / 2) ∧
    (∀ j (hj' : j < (heikenAshi bars).length), i = j + 1 →
        ((heikenAshi bars).get ⟨i, hi'⟩).ha_open
          = (((heikenAshi bars).get ⟨j, hj'⟩).ha_open +
             ((heikenAshi bars).get ⟨j, hj'⟩).ha_close) / 2) := by
  cases bars with
  | nil => simp at hi
  | cons b rest =>
    refine ⟨heikenAshiGo_get_close _ _ i hi hi',
           heikenAshiGo_get_high _ _ i hi hi',
           heikenAshiGo_get_low _ _ i hi hi',
           fun h0 h0' => heikenAshiGo_get_zero_open _ _ h0',
           fun j hj' hij => ?_⟩
    subst hij
    exact heikenAshiGo_get_succ_open _ _ j hj' hi'

/-- Witness for C7 on a concrete two-bar series at index 1. -/
theorem C7_heiken_ashi_recurrence_witness :
    ((heikenAshi [bar0, bar1]).get
        ⟨1, by rw [heikenAshi_length]; norm_num⟩).ha_close
      = haClose ([bar0, bar1].get ⟨1, by norm_num⟩) :=
  (C7_heiken_ashi_recurrence [bar0, bar1] 1 (by norm_num)
    (by rw [heikenAshi_length]; norm_num)).1

/-- Adding a ticker never introduces a duplicate symbol. -/
lemma addTicker_nodup (input : String) (l : List String)
    (h : l.Nodup) : (addTicker input l).Nodup := by
  simp only [addTicker]
  split_ifs with h1 h2
  · exact h
  · exact h
  · simp [List.nodup_append, h, h2]

/-- Removing a ticker never introduces a duplicate symbol. -/
lemma removeTicker_nodup (sym : String) (l : List String)
    (h : l.Nodup) : (removeTicker sym l).Nodup :=
  h.filter _

/-- Any sequence of watchlist-editor operations preserves freedom from
duplicates. -/
lemma applyWatchOps_nodup (ops : List WatchOp) (l : List String)
    (h : l.Nodup) : (applyWatchOps ops l).Nodup := by
  induction ops generalizing l with
  | nil => exact h
  | cons op rest ih =>
    cases op with
    | add input =>
      simpa only [applyWatchOps, List.foldl_cons] using
        ih (addTicker input l) (addTicker_nodup input l h)
    | remove sym =>
      simpa only [applyWatchOps, List.foldl_cons] using
        ih (removeTicker sym l) (removeTicker_nodup sym l h)

/-- C10: `addTicker` trims and uppercases the entered symbol, is a
no-op on blank input, and appends only when the symbol is not already
present; consequently, starting from a duplicate-free list, any
sequence of add and remove operations leaves the ticker list free of
duplicate entries. -/
theorem C10_watchlist_no_duplicates (input : String) (l : List String)
    (ops : List WatchOp) (h : l.Nodup) :
    (jsToUpper (jsTrim input) = "" → addTicker input l = l) ∧
    (jsToUpper (jsTrim input) ∈ l → addTicker input l = l) ∧
    (jsToUpper (jsTrim input) ≠ "" → jsToUpper (jsTrim input) ∉ l →
      addTicker input l = l ++ [jsToUpper (jsTrim input)]) ∧
    (addTicker input l).Nodup ∧
    (applyWatchOps ops l).Nodup := by
  refine ⟨?_, ?_, ?_, addTicker_nodup input l h,
    applyWatchOps_nodup ops l h⟩
  · intro hb; simp only [addTicker]; split_ifs <;> simp_all
  · intro hmem; simp only [addTicker]; split_ifs <;> simp_all
  · intro hb hmem; simp only [addTicker]; split_ifs <;> simp_all

/-- Witness for C10 on a concrete add/remove sequence over a
singleton watchlist. -/
theorem C10_watchlist_no_duplicates_witness :
    (addTicker " aapl " ["MSFT"]).Nodup ∧
    (applyWatchOps [WatchOp.add "tsla", WatchOp.remove "MSFT"]
      ["MSFT"]).Nodup := by
  have h := C10_watchlist_no_duplicates " aapl " ["MSFT"]
    [WatchOp.add "tsla", WatchOp.remove "MSFT"] (by decide)
  exact ⟨h.2.2.2.1, h.2.2.2.2⟩

end QuantCode
